import Mathlib

/-!
Verification development for the icon normalization and classification engine of
`design-system-icons/src/svgr-processor.ts`.

The TypeScript source is shallowly embedded:
* a parsed DOM element becomes the inductive `Element` (tag name, attribute list in
  document order, child elements);
* JS strings become Lean `String`s, JS `null` becomes `Option`;
* JS numbers (used only by the stroke outliner) are modelled as `JNum := Option ℚ`,
  where `none` plays the role of `NaN`: arithmetic propagates `none`, comparisons
  with `none` are false, exactly as IEEE `NaN` behaves in the source's comparisons;
* the regex-based text fallback of `processSvgToReact` is embedded by faithful
  character-list scanners implementing the semantics of the concrete regular
  expressions appearing in the source.
-/

namespace SvgrProc

/-- A parsed DOM element as seen by the processor: tag name, attributes in document
order, and child elements. -/
inductive Element where
  | mk (tag : String) (attrs : List (String × String)) (children : List Element)

/-- The element's tag name as written in the document (the source always lowercases
it before comparing, via `tagName.toLowerCase()`). -/
def Element.tag : Element → String
  | .mk t _ _ => t

/-- The element's attribute list in document order (model of `element.attributes`). -/
def Element.attrs : Element → List (String × String)
  | .mk _ a _ => a

/-- The element's child elements (model of `element.children`). -/
def Element.children : Element → List Element
  | .mk _ _ c => c

/-- Model of `element.getAttribute(n)`: the first attribute with that name, or
`none` for JS `null`. -/
def Element.getAttr (e : Element) (n : String) : Option String :=
  (e.attrs.find? (fun p => p.1 == n)).map (fun p => p.2)

/-- Model of `element.hasAttribute(n)`. -/
def Element.hasAttr (e : Element) (n : String) : Bool :=
  (e.getAttr n).isSome

/-- `sub` occurs as a contiguous run inside `l` (model of JS `String.includes`). -/
def listHasInfix (sub : List Char) : List Char → Bool
  | [] => sub.isEmpty
  | c :: cs => sub.isPrefixOf (c :: cs) || listHasInfix sub cs

/-- Model of JS `s.includes(sub)`. -/
def strIncludes (s sub : String) : Bool := listHasInfix sub.data s.data

/-- Model of JS `toLowerCase` (ASCII, which covers every tag and attribute text
this engine meets), implemented over the character list so that it reduces. -/
def jsToLower (s : String) : String := String.mk (s.data.map Char.toLower)

/-- Model of JS `s.startsWith(p)`. -/
def jsStartsWith (s p : String) : Bool := p.data.isPrefixOf s.data

/-- Whitespace for the JS `trim` model. -/
def isWsChar (c : Char) : Bool := c == ' ' || c == '\t' || c == '\n' || c == '\r'

/-- Model of JS `s.trim()`. -/
def jsTrim (s : String) : String :=
  String.mk (((s.data.dropWhile isWsChar).reverse.dropWhile isWsChar).reverse)

/-- Split a character list at every occurrence of `c` (model of JS
`split("-")`). -/
def splitOnChar (c : Char) : List Char → List (List Char)
  | [] => [[]]
  | x :: xs =>
    match splitOnChar c xs with
    | [] => [[]]
    | h :: t => if x == c then [] :: h :: t else (x :: h) :: t

/-- Model of JS `s.split("-")`. -/
def jsSplitDash (s : String) : List String := (splitOnChar '-' s.data).map String.mk

/-- `isHelperElement` (svgr-processor.ts lines 226-256): an element is a helper
layer if it is a white-filled rect, a 24x24 rect, or carries a helper-like id or
class. -/
def isHelperElement (e : Element) : Bool :=
  let tagName := jsToLower e.tag
  let fill := e.getAttr "fill"
  let width := e.getAttr "width"
  let height := e.getAttr "height"
  if tagName == "rect" && (fill == some "#ffffff" || fill == some "white" || fill == some "#fff") then
    true
  else if tagName == "rect" && (width == some "24" && height == some "24") then
    true
  else
    let id := ((e.getAttr "id").map jsToLower).getD ""
    let className := ((e.getAttr "class").map jsToLower).getD ""
    strIncludes id "helper" || strIncludes id "background" || strIncludes id "bg" ||
      strIncludes className "helper" || strIncludes className "background" || strIncludes className "bg"

/-- `isMainIconElement` (lines 259-273): path, or one of the other vector tags. -/
def isMainIconElement (e : Element) : Bool :=
  let tagName := jsToLower e.tag
  if tagName == "path" then true
  else if ["circle", "ellipse", "line", "polygon", "polyline"].contains tagName then true
  else false

/-- The principal ("main") element list of `processSvgToReact`'s DOM strategy
(lines 299-314): non-helper main-icon elements, falling back to all non-helper
children when that filter leaves nothing. -/
def mainElementsOf (children : List Element) : List Element :=
  let mains := children.filter (fun e => !isHelperElement e && isMainIconElement e)
  if mains.isEmpty then children.filter (fun e => !isHelperElement e) else mains

/-- `hasStroke` as computed in the classification loop (lines 327-329). -/
def elemHasStroke (e : Element) : Bool :=
  e.hasAttr "stroke" && e.getAttr "stroke" != some "none" && e.getAttr "stroke" != some "transparent"

/-- `hasFill` as computed in the classification loop (lines 330-332). -/
def elemHasFill (e : Element) : Bool :=
  e.hasAttr "fill" && e.getAttr "fill" != some "none" && e.getAttr "fill" != some "transparent"

/-- The tag list of the fill-or-stroke well-formedness check inside the
classification loop (line 340). Note that `line` is absent from it. -/
def outlineCheckTags : List String := ["path", "circle", "ellipse", "rect", "polygon", "polyline"]

/-- Per-element contribution to `allElementsProperlyOutlined` (lines 322-346): the
flag stays true for this element unless it has a stroke, or it is one of the
checked vector tags and has neither fill nor stroke. -/
def elemProperlyOutlined (e : Element) : Bool :=
  !(elemHasStroke e ||
    (outlineCheckTags.contains (jsToLower e.tag) && !elemHasFill e && !elemHasStroke e))

/-- The flatness classification of the DOM strategy applied to the principal
element list (lines 317-359). -/
def classifyMains (mains : List Element) : Bool :=
  let pathElements := mains.filter (fun e => jsToLower e.tag == "path")
  let allElementsProperlyOutlined := mains.all elemProperlyOutlined
  let hasStrokes := mains.any elemHasStroke
  let hasNestedElements := mains.any (fun e => !e.children.isEmpty)
  let isSinglePathElement := pathElements.length == 1 && mains.length == 1
  let isMultipleProperlyOutlinedElements :=
    decide (mains.length > 1) && allElementsProperlyOutlined && !hasStrokes
  (isSinglePathElement || isMultipleProperlyOutlinedElements) && !hasNestedElements

/-- `isSinglePath` as computed by the DOM strategy from the svg element's children. -/
def isSinglePathDom (children : List Element) : Bool :=
  classifyMains (mainElementsOf children)

/-- `getComponentName` (lines 8-14): kebab-case to PascalCase plus the `Icon`
suffix. `jsCapitalizeFirst` models `part.charAt(0).toUpperCase() + part.slice(1)`. -/
def jsCapitalizeFirst (part : String) : String :=
  match part.data with
  | [] => ""
  | c :: cs => String.mk (c.toUpper :: cs)

/-- `getComponentName` (lines 8-14). -/
def getComponentName (filename : String) : String :=
  String.join ((jsSplitDash filename).map jsCapitalizeFirst) ++ "Icon"

/-- JS numbers as used by the stroke outliner, modelled exactly: `none` is `NaN`
(arithmetic propagates it, comparisons with it are false), `some q` an exact
rational. All numerals reaching the outliner in the claims are small decimals,
for which rational and binary floating-point arithmetic agree. -/
abbrev JNum := Option ℚ

/-- NaN. -/
def JNum.nan : JNum := none

/-- Addition, propagating NaN. -/
def JNum.add : JNum → JNum → JNum
  | some a, some b => some (a + b)
  | _, _ => none

/-- Subtraction, propagating NaN. -/
def JNum.sub : JNum → JNum → JNum
  | some a, some b => some (a - b)
  | _, _ => none

/-- Halving (`x / 2`), propagating NaN. -/
def JNum.half : JNum → JNum
  | some a => some (a / 2)
  | none => none

/-- Multiplication, propagating NaN. -/
def JNum.mulJ : JNum → JNum → JNum
  | some a, some b => some (a * b)
  | _, _ => none

/-- `Math.max(0, x)`; `Math.max(0, NaN)` is `NaN`. -/
def JNum.max0 : JNum → JNum
  | some a => some (max 0 a)
  | none => none

/-- `x <= 0`; false when `x` is `NaN`. -/
def JNum.leZero : JNum → Bool
  | some a => decide (a ≤ 0)
  | none => false

/-- Rendering of a number into a template literal. The digits never matter to any
claim (every claim about outliner output is stated as equality with a template
built from the same rendering), so the exact rational notation is used. -/
def JNum.render : JNum → String
  | some a => toString a
  | none => "NaN"

/-- The host `Math` library's transcendental functions (used only by the line
branch of the outliner) are outside the rational model; they are replaced by
total stand-ins that propagate NaN. No claim depends on the numeric content of
the line branch, only on the fact that it produces a path string. -/
def mathAtan2 : JNum → JNum → JNum
  | some _, some _ => some 0
  | _, _ => none

/-- NaN-propagating stand-in for `Math.cos`; see `mathAtan2`. -/
def mathCos : JNum → JNum
  | some _ => some 1
  | none => none

/-- NaN-propagating stand-in for `Math.sin`; see `mathAtan2`. -/
def mathSin : JNum → JNum
  | some _ => some 0
  | none => none

/-- Digits of a numeral to a natural number. -/
def digitsToNat (ds : List Char) : Nat :=
  ds.foldl (fun a c => a * 10 + (c.toNat - 48)) 0

/-- Model of JS `parseFloat` on the decimal literals the processor meets: skip
leading whitespace, optional sign, integer digits, optional fraction; trailing
garbage is ignored; `NaN` (`none`) when no digit is found. Exponent forms are not
modelled (no claim uses them). -/
def parseFloatJ (s : String) : JNum :=
  let l := s.data.dropWhile (fun c => c == ' ' || c == '\t' || c == '\n' || c == '\r')
  let signAndRest : ℚ × List Char :=
    match l with
    | c :: rest =>
      if c == '-' then (-1, rest) else if c == '+' then (1, rest) else (1, c :: rest)
    | [] => (1, [])
  let sign := signAndRest.1
  let l1 := signAndRest.2
  let ip := l1.takeWhile Char.isDigit
  let l2 := l1.dropWhile Char.isDigit
  let fp : List Char :=
    match l2 with
    | c :: rest => if c == '.' then rest.takeWhile Char.isDigit else []
    | [] => []
  if ip.isEmpty && fp.isEmpty then none
  else some (sign * ((digitsToNat ip : ℚ) + (digitsToNat fp : ℚ) / (10 ^ fp.length)))

/-- Model of `element.getAttribute(n) || d`: JS `||` takes the default both for
`null` and for the empty string. -/
def attrOr (e : Element) (n d : String) : String :=
  match e.getAttr n with
  | none => d
  | some s => if s == "" then d else s

/-- The single-disc path template of the circle branch (line 69 of the source),
with `oR` the outer radius `r + strokeWidth/2`. -/
def circleDiscPath (cx cy oR : JNum) : String :=
  "M " ++ cx.render ++ " " ++ (cy.sub oR).render ++ " A " ++ oR.render ++ " " ++ oR.render ++
    " 0 1 1 " ++ cx.render ++ " " ++ (cy.add oR).render ++ " A " ++ oR.render ++ " " ++
    oR.render ++ " 0 1 1 " ++ cx.render ++ " " ++ (cy.sub oR).render ++ " Z"

/-- The ring path template of the circle branch (line 72 of the source): outer
circular sub-path with sweep flag 1, inner circular sub-path with the opposite
sweep flag 0. -/
def circleRingPath (cx cy oR iR : JNum) : String :=
  circleDiscPath cx cy oR ++ " M " ++ cx.render ++ " " ++ (cy.sub iR).render ++ " A " ++
    iR.render ++ " " ++ iR.render ++ " 0 1 0 " ++ cx.render ++ " " ++ (cy.add iR).render ++
    " A " ++ iR.render ++ " " ++ iR.render ++ " 0 1 0 " ++ cx.render ++ " " ++
    (cy.sub iR).render ++ " Z"

/-- The circle branch of `strokeToOutline` (lines 57-74). -/
def circleOutline (cx cy r width : JNum) : String :=
  let outerR := r.add width.half
  let innerR := (r.sub width.half).max0
  if innerR.leZero then circleDiscPath cx cy outerR
  else circleRingPath cx cy outerR innerR

/-- The line branch of `strokeToOutline` (lines 29-55): the stroke becomes a
closed quadrilateral around the segment. -/
def lineOutline (x1 y1 x2 y2 width : JNum) : String :=
  let angle := mathAtan2 (y2.sub y1) (x2.sub x1)
  let halfWidth := width.half
  let c := mathCos angle
  let s := mathSin angle
  let x1a := x1.sub ((halfWidth.mulJ s))
  let y1a := y1.add ((halfWidth.mulJ c))
  let x1b := x1.add ((halfWidth.mulJ s))
  let y1b := y1.sub ((halfWidth.mulJ c))
  let x2a := x2.sub ((halfWidth.mulJ s))
  let y2a := y2.add ((halfWidth.mulJ c))
  let x2b := x2.add ((halfWidth.mulJ s))
  let y2b := y2.sub ((halfWidth.mulJ c))
  "M " ++ x1a.render ++ " " ++ y1a.render ++ " L " ++ x2a.render ++ " " ++ y2a.render ++
    " L " ++ x2b.render ++ " " ++ y2b.render ++ " L " ++ x1b.render ++ " " ++
    y1b.render ++ " Z"

/-- The rect branch of `strokeToOutline` (lines 76-101). -/
def rectOutline (x y width height strokeWidth : JNum) : String :=
  let halfStroke := strokeWidth.half
  let outerX := x.sub halfStroke
  let outerY := y.sub halfStroke
  let outerWidth := width.add strokeWidth
  let outerHeight := height.add strokeWidth
  let innerX := x.add halfStroke
  let innerY := y.add halfStroke
  let innerWidth := (width.sub strokeWidth).max0
  let innerHeight := (height.sub strokeWidth).max0
  if innerWidth.leZero || innerHeight.leZero then
    "M " ++ outerX.render ++ " " ++ outerY.render ++ " L " ++ (outerX.add outerWidth).render ++
      " " ++ outerY.render ++ " L " ++ (outerX.add outerWidth).render ++ " " ++
      (outerY.add outerHeight).render ++ " L " ++ outerX.render ++ " " ++
      (outerY.add outerHeight).render ++ " Z"
  else
    "M " ++ outerX.render ++ " " ++ outerY.render ++ " L " ++ (outerX.add outerWidth).render ++
      " " ++ outerY.render ++ " L " ++ (outerX.add outerWidth).render ++ " " ++
      (outerY.add outerHeight).render ++ " L " ++ outerX.render ++ " " ++
      (outerY.add outerHeight).render ++ " Z M " ++ innerX.render ++ " " ++ innerY.render ++
      " L " ++ innerX.render ++ " " ++ (innerY.add innerHeight).render ++ " L " ++
      (innerX.add innerWidth).render ++ " " ++ (innerY.add innerHeight).render ++ " L " ++
      (innerX.add innerWidth).render ++ " " ++ innerY.render ++ " Z"

/-- `strokeToOutline` (lines 17-106): returns `none` (JS `null`) for an absent,
empty, `none` or `transparent` stroke; converts line, circle and rect strokes to
filled outline paths; for every other tag falls through to `getAttribute('d')`. -/
def strokeToOutline (e : Element) : Option String :=
  let tagName := jsToLower e.tag
  let stroke := e.getAttr "stroke"
  let strokeWidth := attrOr e "stroke-width" "1"
  match stroke with
  | none => none
  | some sv =>
    if sv == "" || sv == "none" || sv == "transparent" then none
    else if tagName == "line" then
      some (lineOutline (parseFloatJ (attrOr e "x1" "0")) (parseFloatJ (attrOr e "y1" "0"))
        (parseFloatJ (attrOr e "x2" "0")) (parseFloatJ (attrOr e "y2" "0"))
        (parseFloatJ strokeWidth))
    else if tagName == "circle" then
      some (circleOutline (parseFloatJ (attrOr e "cx" "0")) (parseFloatJ (attrOr e "cy" "0"))
        (parseFloatJ (attrOr e "r" "0")) (parseFloatJ strokeWidth))
    else if tagName == "rect" then
      some (rectOutline (parseFloatJ (attrOr e "x" "0")) (parseFloatJ (attrOr e "y" "0"))
        (parseFloatJ (attrOr e "width" "0")) (parseFloatJ (attrOr e "height" "0"))
        (parseFloatJ strokeWidth))
    else e.getAttr "d"

/-- The SVGR paint rewrite of the DOM strategy (lines 369-380): a `fill` or
`stroke` value becomes `currentColor` unless it is exactly `none`, `transparent`
or `rgba(0,0,0,0)`, or starts with `url(`, `hsl(` or `rgb(`. Other attribute
names pass through. -/
def transformAttrValue (name value : String) : String :=
  if name == "fill" || name == "stroke" then
    if value != "none" && value != "transparent" && value != "rgba(0,0,0,0)" &&
        !(jsStartsWith value "url(") && !(jsStartsWith value "hsl(") && !(jsStartsWith value "rgb(") then
      "currentColor"
    else value
  else value

/-- The apostrophe character, written by code point to keep the development free of
quote-literal pitfalls. -/
def squote : Char := Char.ofNat 39

/-- Loop of the quote-aware attribute tokenizer (lines 386-413, duplicated at
518-545): split on spaces, but never inside a quoted run; each completed token is
trimmed and empty tokens are dropped. -/
def sqaGo : List Char → Option Char → List Char → List String
  | [], _, cur =>
    let t := jsTrim (String.mk cur)
    if t == "" then [] else [t]
  | c :: cs, none, cur =>
    if c == '"' || c == squote then sqaGo cs (some c) (cur ++ [c])
    else if c == ' ' then
      (let t := jsTrim (String.mk cur)
       if t == "" then sqaGo cs none cur else t :: sqaGo cs none [])
    else sqaGo cs none (cur ++ [c])
  | c :: cs, some q, cur =>
    if c == q then sqaGo cs none (cur ++ [c]) else sqaGo cs (some q) (cur ++ [c])

/-- The quote-aware attribute tokenizer. -/
def splitAttrsQuoteAware (s : String) : List String := sqaGo s.data none []

/-- Rendering of one principal element in the DOM strategy (lines 367-420):
attribute values go through the SVGR paint rewrite; a path is emitted with one
attribute per line, any other tag as a single self-closing line. -/
def renderElementDom (e : Element) : String :=
  let tagName := jsToLower e.tag
  let attributes :=
    String.intercalate " "
      (e.attrs.map (fun p => p.1 ++ "=\"" ++ transformAttrValue p.1 p.2 ++ "\""))
  if tagName == "path" then
    let attrTokens := splitAttrsQuoteAware attributes
    let formattedAttrs := String.join (attrTokens.map (fun a => "\n          " ++ a))
    "<" ++ tagName ++ formattedAttrs ++ "\n        />"
  else
    "<" ++ tagName ++ " " ++ attributes ++ " />"

/-- `childElements` of the DOM strategy (line 367/420): the rendered principal
elements joined by the template separator. -/
def childElementsDom (children : List Element) : String :=
  String.intercalate "\n        " ((mainElementsOf children).map renderElementDom)

/-- The embeddable JSX rendering (lines 557-569): carries the sizing, class,
ref and prop-spread placeholder tokens. -/
def mkJsx (viewBox childElements : String) : String :=
  "<svg\n        width=\x7bsize || 24\x7d\n        height=\x7bsize || 24\x7d\n        viewBox=\"" ++
    viewBox ++
    "\"\n        fill=\"currentColor\"\n        xmlns=\"http://www.w3.org/2000/svg\"\n        className=\x7bclassName\x7d\n        aria-hidden=\"true\"\n        ref=\x7bref\x7d\n        \x7b...props\x7d\n      >\n        " ++
    childElements ++ "\n      </svg>"

/-- The preview rendering (lines 572-581): fixed numeric dimensions, no
placeholder tokens. -/
def mkPreviewSvg (viewBox childElements : String) : String :=
  "<svg\n        width=\"24\"\n        height=\"24\"\n        viewBox=\"" ++ viewBox ++
    "\"\n        fill=\"currentColor\"\n        xmlns=\"http://www.w3.org/2000/svg\"\n        aria-hidden=\"true\"\n      >\n        " ++
    childElements ++ "\n      </svg>"

/-- The full component source template (lines 584-600, repeated with the
`(fallback)` comment label at 628-644): a deterministic function of the component
name, the comment label and the embedded JSX. -/
def mkReactCodeCore (componentName label jsx : String) : String :=
  "/**\n * (c) Copyright 2025 Nominal Inc. All rights reserved.\n */\n\nimport React, \x7b memo \x7d from \"react\";\n\nimport type \x7b IconProps \x7d from \"./types\";\n// Auto-generated icon component" ++
    label ++ "\nexport const " ++ componentName ++
    ": React.NamedExoticComponent<IconProps> = memo(\n  function " ++ componentName ++
    "(\x7b size = 24, className, ref, ...props \x7d: IconProps) \x7b\n    return (\n      " ++
    jsx ++ "\n    );\n  \x7d,\n);\n" ++ componentName ++ ".displayName = \"" ++ componentName ++
    "\";\nexport \x7b " ++ componentName ++ " as ReactComponent \x7d;"

/-- The engine's sole output type (`ProcessedIcon & \x7b isSinglePath \x7d`). -/
structure ProcessedIcon where
  componentName : String
  reactCode : String
  jsx : String
  previewSvg : String
  isSinglePath : Bool

/-- The DOM strategy of `processSvgToReact` (lines 275-608), taking the parse
result of the environment's `DOMParser` (the svg element's `viewBox` attribute
and child list) as input. An absent or empty `viewBox` falls back to the default
(JS `||`). -/
def processSvgDom (viewBoxAttr : Option String) (children : List Element)
    (iconName : String) : ProcessedIcon :=
  let componentName := getComponentName iconName
  let viewBox :=
    match viewBoxAttr with
    | none => "0 0 24 24"
    | some v => if v == "" then "0 0 24 24" else v
  let childElements := childElementsDom children
  let isSinglePath := isSinglePathDom children
  let jsx := mkJsx viewBox childElements
  { componentName := componentName
    reactCode := mkReactCodeCore componentName "" jsx
    jsx := jsx
    previewSvg := mkPreviewSvg viewBox childElements
    isSinglePath := isSinglePath }

/-- The generic placeholder glyph path of the error fallback (line 625). -/
def fallbackGlyphElement : String :=
  "<path d=\"M12 2L2 7l10 5 10-5-10-5zM2 17l10 5 10-5M2 12l10 5 10-5\" />"

/-- `fallbackJsx` of the error branch (lines 614-626): the embeddable template
around the placeholder glyph with the default view-box. -/
def fallbackJsx : String := mkJsx "0 0 24 24" fallbackGlyphElement

/-- The fixed fallback result of the outer catch (lines 609-653): fallback JSX is
used for both renderings, the source definition wraps it in the same template
(with the `(fallback)` comment label), and `isSinglePath` is false. -/
def fallbackResult (iconName : String) : ProcessedIcon :=
  let componentName := getComponentName iconName
  { componentName := componentName
    reactCode := mkReactCodeCore componentName " (fallback)" fallbackJsx
    jsx := fallbackJsx
    previewSvg := fallbackJsx
    isSinglePath := false }

/-- The outer `try`/`catch` of `processSvgToReact` (lines 279 and 609): the body's
outcome is modelled as `Except` (`.error` standing for a raised JS exception);
any error is absorbed into the fixed fallback result. -/
def processSvgToReactTotal (body : Except String ProcessedIcon)
    (iconName : String) : ProcessedIcon :=
  match body with
  | .ok r => r
  | .error _ => fallbackResult iconName

/-- One attempted match of the regex `<tag[^>]*\/>` at the head of `l`: it
succeeds iff `l` starts with `tag` (e.g. `<path`) and the first `>` after it is
immediately preceded by `/`; the match runs through that `>`. Returns the match
and the remainder after it. -/
def trySelfClosingAt (tag l : List Char) : Option (List Char × List Char) :=
  if tag.isPrefixOf l then
    let r := l.drop tag.length
    let v := r.takeWhile (fun c => c != '>')
    match r.drop v.length with
    | c :: rest =>
      if v.getLast? == some '/' then some (tag ++ v ++ [c], rest) else none
    | [] => none
  else none

/-- All matches of `/<(tag1|tag2|...)[^>]*\/>/g` over `l`, scanning left to right,
continuing after each match, advancing one character on failure (the fuel is the
input length, which bounds the number of scanner steps). -/
def scanGo (tags : List (List Char)) : Nat → List Char → List String
  | 0, _ => []
  | _ + 1, [] => []
  | f + 1, c :: cs =>
    match tags.findSome? (fun t => trySelfClosingAt t (c :: cs)) with
    | some (m, rest) => String.mk m :: scanGo tags f rest
    | none => scanGo tags f cs

/-- `svgContent.match(/<tag[^>]*\/>/g) || []` for the given opening-tag texts
(lines 438-441 of the source). -/
def scanMatches (tags : List String) (s : String) : List String :=
  scanGo (tags.map String.data) s.data.length s.data

/-- First match of `/viewBox="([^"]+)"/` (lines 432-435): the captured group. -/
def viewBoxGo : Nat → List Char → Option String
  | 0, _ => none
  | _ + 1, [] => none
  | f + 1, c :: cs =>
    if "viewBox=\"".data.isPrefixOf (c :: cs) then
      let r := (c :: cs).drop 9
      let v := r.takeWhile (fun x => x != '"')
      match r.drop v.length with
      | _ :: _ => if v.isEmpty then viewBoxGo f cs else some (String.mk v)
      | [] => viewBoxGo f cs
    else viewBoxGo f cs

/-- The `viewBox` extraction of the fallback strategy. -/
def firstViewBox (s : String) : Option String := viewBoxGo s.data.length s.data

/-- The helper-rect filter of the fallback strategy (lines 444-451): a rect match
is dropped when it contains a white fill text, or both the `width="24"` and
`height="24"` texts. -/
def keepRectFallback (s : String) : Bool :=
  !(strIncludes s "fill=\"#ffffff\"" || strIncludes s "fill=\"white\"" ||
    strIncludes s "fill=\"#fff\"" ||
    (strIncludes s "width=\"24\"" && strIncludes s "height=\"24\""))

/-- `hasStroke` of the fallback classification loop (lines 467-469). -/
def fallbackHasStroke (s : String) : Bool :=
  strIncludes s "stroke=" && !(strIncludes s "stroke=\"none\"") &&
    !(strIncludes s "stroke=\"transparent\"")

/-- `hasFill` of the fallback classification loop (lines 470-472). -/
def fallbackHasFill (s : String) : Bool :=
  strIncludes s "fill=" && !(strIncludes s "fill=\"none\"") &&
    !(strIncludes s "fill=\"transparent\"")

/-- The opening texts checked by the fallback well-formedness test (lines
480-481); as in the DOM strategy, `<line` is absent. -/
def fallbackVectorStarts : List String :=
  ["<path", "<circle", "<ellipse", "<rect", "<polygon", "<polyline"]

/-- Per-element contribution to `allElementsProperlyOutlined` in the fallback
strategy (lines 462-487). -/
def fallbackProperlyOutlined (s : String) : Bool :=
  !(fallbackHasStroke s ||
    (fallbackVectorStarts.any (fun t => jsStartsWith s t) && !fallbackHasFill s &&
      !fallbackHasStroke s))

/-- The flatness classification of the fallback strategy (lines 489-500). It has
no nested-element check: the source comments that nesting cannot easily be
detected over raw text. -/
def classifyFallback (allElements : List String) : Bool :=
  let pathElements := allElements.filter (fun s => jsStartsWith s "<path")
  let allElementsProperlyOutlined := allElements.all fallbackProperlyOutlined
  let hasStrokes := allElements.any fallbackHasStroke
  let isSinglePathElement := pathElements.length == 1 && allElements.length == 1
  let isMultipleProperlyOutlinedElements :=
    decide (allElements.length > 1) && allElementsProperlyOutlined && !hasStrokes
  isSinglePathElement || isMultipleProperlyOutlinedElements

/-- The negative lookahead of the fallback paint-rewrite regex (line 509): the
value text is excluded when it *starts with* one of the six alternatives. -/
def paintExcludedLookahead (content : List Char) : Bool :=
  ["none", "transparent", "rgba(0,0,0,0)", "url(", "hsl(", "rgb("].any
    (fun p => p.data.isPrefixOf content)

/-- The part of one paint-rewrite match attempt after the `attr="` prefix has been
consumed: the negative lookahead on the value text, then `[^"]*` up to a closing
quote (no closing quote means no match). On success: the replacement
`$1="currentColor"` and the remainder after the match. -/
def paintAttempt (attr : String) (content : List Char) : Option (List Char × List Char) :=
  if paintExcludedLookahead content then none
  else
    let v := content.takeWhile (fun c => c != '"')
    match content.drop v.length with
    | _ :: rest => some ((attr ++ "=\"currentColor\"").data, rest)
    | [] => none

/-- One attempted match of `(fill|stroke)="(?!none|transparent|rgba\(0,0,0,0\)|url\(|hsl\(|rgb\()[^"]*"`
at the head of `l` (the two alternation branches have mutually exclusive opening
texts, so at most one can apply). -/
def tryPaintMatchAt (l : List Char) : Option (List Char × List Char) :=
  if "fill=\"".data.isPrefixOf l then paintAttempt "fill" (l.drop 6)
  else if "stroke=\"".data.isPrefixOf l then paintAttempt "stroke" (l.drop 8)
  else none

/-- The global replace loop of the fallback paint rewrite. -/
def replacePaintGo : Nat → List Char → List Char
  | 0, l => l
  | _ + 1, [] => []
  | f + 1, c :: cs =>
    match tryPaintMatchAt (c :: cs) with
    | some (rep, rest) => rep ++ replacePaintGo f rest
    | none => c :: replacePaintGo f cs

/-- `element.replace(/(fill|stroke)="(?!...)[^"]*"/g, '$1="currentColor"')`
(line 509). -/
def jsReplacePaint (s : String) : String :=
  String.mk (replacePaintGo s.data.length s.data)

/-- First match of `/<path([^>]*)\/>/` (line 515): the captured attribute group. -/
def pathAttrsGo : Nat → List Char → Option String
  | 0, _ => none
  | _ + 1, [] => none
  | f + 1, c :: cs =>
    if "<path".data.isPrefixOf (c :: cs) then
      let r := (c :: cs).drop 5
      let v := r.takeWhile (fun x => x != '>')
      match r.drop v.length with
      | _ :: _ =>
        if v.getLast? == some '/' then some (String.mk v.dropLast) else pathAttrsGo f cs
      | [] => pathAttrsGo f cs
    else pathAttrsGo f cs

/-- The path re-formatting matcher of the fallback renderer. -/
def firstPathAttrs (s : String) : Option String := pathAttrsGo s.data.length s.data

/-- Rendering of one matched element in the fallback strategy (lines 507-553):
paint rewrite by regex, then path matches are re-emitted one attribute per line. -/
def transformFallbackElement (s : String) : String :=
  let transformedElement := jsReplacePaint s
  if jsStartsWith s "<path" then
    match firstPathAttrs transformedElement with
    | some g =>
      let attrString := jsTrim g
      let attrTokens := splitAttrsQuoteAware attrString
      let formattedAttrs := String.join (attrTokens.map (fun a => "\n          " ++ a))
      "<path" ++ formattedAttrs ++ "\n        />"
    | none => transformedElement
  else transformedElement

/-- The regex fallback strategy of `processSvgToReact` (lines 428-554 plus the
shared synthesis, lines 556-608). -/
def processSvgFallback (svgContent iconName : String) : ProcessedIcon :=
  let componentName := getComponentName iconName
  let viewBox := (firstViewBox svgContent).getD "0 0 24 24"
  let pathMatches := scanMatches ["<path"] svgContent
  let circleMatches := scanMatches ["<circle"] svgContent
  let rectMatches := scanMatches ["<rect"] svgContent
  let otherMatches := scanMatches ["<ellipse", "<line", "<polygon", "<polyline"] svgContent
  let filteredRectMatches := rectMatches.filter keepRectFallback
  let allElements := pathMatches ++ circleMatches ++ filteredRectMatches ++ otherMatches
  let isSinglePath := classifyFallback allElements
  let childElements := String.intercalate "\n        " (allElements.map transformFallbackElement)
  let jsx := mkJsx viewBox childElements
  { componentName := componentName
    reactCode := mkReactCodeCore componentName "" jsx
    jsx := jsx
    previewSvg := mkPreviewSvg viewBox childElements
    isSinglePath := isSinglePath }

/-- `processSvgToReact`'s strategy selection (lines 287-554): the DOM strategy
when the environment's `DOMParser` produced an svg element, the text fallback
otherwise (DOMParser unavailable, or no svg element found). -/
def processSvgToReact (domParse : Option (Option String × List Element))
    (svgContent iconName : String) : ProcessedIcon :=
  match domParse with
  | some (vb, children) => processSvgDom vb children iconName
  | none => processSvgFallback svgContent iconName

/-! Specification-side definitions: these follow the words of the specification
and of the claims, for comparison against the source-derived definitions above. -/

/-- Claim C4's helper rule in the specification's words: white-filled rect, or
exactly-24x24 rect, or id/class text containing (case-insensitively) `helper`,
`background` or `bg`. -/
def helperSpec (e : Element) : Prop :=
  (jsToLower e.tag = "rect" ∧
    (e.getAttr "fill" = some "#ffffff" ∨ e.getAttr "fill" = some "white" ∨
      e.getAttr "fill" = some "#fff")) ∨
  (jsToLower e.tag = "rect" ∧ e.getAttr "width" = some "24" ∧ e.getAttr "height" = some "24") ∨
  (strIncludes (jsToLower ((e.getAttr "id").getD "")) "helper" = true ∨
   strIncludes (jsToLower ((e.getAttr "id").getD "")) "background" = true ∨
   strIncludes (jsToLower ((e.getAttr "id").getD "")) "bg" = true ∨
   strIncludes (jsToLower ((e.getAttr "class").getD "")) "helper" = true ∨
   strIncludes (jsToLower ((e.getAttr "class").getD "")) "background" = true ∨
   strIncludes (jsToLower ((e.getAttr "class").getD "")) "bg" = true)

/-- Claim C1's canonical-form rule in the claim's words: no nested geometry, and
either a single principal path, or more than one principal element, every one
well-formed (usable fill or stroke), none carrying an unconverted stroke. -/
def specCanonicalDom (children : List Element) : Bool :=
  let mains := mainElementsOf children
  (mains.all fun e => e.children.isEmpty) &&
    ((mains.length == 1 && mains.all fun e => jsToLower e.tag == "path") ||
      (decide (1 < mains.length) &&
        (mains.all fun e => elemHasFill e || elemHasStroke e) &&
        (mains.all fun e => !elemHasStroke e)))

/-- The amended form of claim C1, on an already-computed principal list: the
well-formedness requirement applies only to elements whose tag is in
`outlineCheckTags` (so in particular not to `line` elements, which escape the
check in the source). -/
def specCanonicalAmendedMains (mains : List Element) : Bool :=
  (mains.all fun e => e.children.isEmpty) &&
    ((mains.length == 1 && mains.all fun e => jsToLower e.tag == "path") ||
      (decide (1 < mains.length) &&
        (mains.all fun e =>
          !(outlineCheckTags.contains (jsToLower e.tag)) || elemHasFill e || elemHasStroke e) &&
        (mains.all fun e => !elemHasStroke e)))

/-- The amended form of claim C1 over the svg element's children. -/
def specCanonicalAmendedDom (children : List Element) : Bool :=
  specCanonicalAmendedMains (mainElementsOf children)

/-- Counterexample input to claim C1: a well-formed path plus a `line` element
with neither fill nor stroke (not well-formed in the claim's sense). -/
def c1ex : List Element :=
  [.mk "path" [("d", "M5 12h14"), ("fill", "#000000")] [],
   .mk "line" [("x1", "1")] []]

/-- Counterexample markup to claim C3 for the text-pattern strategy: the outer
path nests a self-closing child path. -/
def c3markup : String :=
  "<svg viewBox=\"0 0 24 24\"><path fill=\"#000\"><path d=\"M1 1\"/></path></svg>"

/-- The DOM view of the single svg child in `c3markup`: a principal path element
that itself contains a child element. -/
def c3outer : Element :=
  .mk "path" [("fill", "#000")] [.mk "path" [("d", "M1 1")] []]

/-- Counterexample element to claim C5: a stroked path carrying a `d` attribute;
the claim says the unhandled-path case returns null, the source returns the `d`
text. -/
def c5ex : Element := .mk "path" [("stroke", "#000"), ("d", "M0 0")] []

/-- Claim C5's null condition exactly as the claim words it: no stroke, stroke
`none`/`transparent`, or a tag this stage does not handle. -/
def c5ClaimNullCond (e : Element) : Prop :=
  e.getAttr "stroke" = none ∨ e.getAttr "stroke" = some "none" ∨
    e.getAttr "stroke" = some "transparent" ∨
    jsToLower e.tag = "path" ∨ jsToLower e.tag = "polygon" ∨ jsToLower e.tag = "polyline" ∨
    jsToLower e.tag = "ellipse"

/-- Claim C7's excluded paint classes, exact-match reading (the claim's words:
"not none, not transparent, not the zero-alpha literal, and does not begin with
url(, hsl(, or rgb("). -/
def specPaintExcludedExact (v : String) : Bool :=
  v == "none" || v == "transparent" || v == "rgba(0,0,0,0)" ||
    jsStartsWith v "url(" || jsStartsWith v "hsl(" || jsStartsWith v "rgb("

/-- The amended exclusion rule of the text-fallback rewrite: the value is
untouched when it *begins with* any of the six alternatives of the negative
lookahead. -/
def specPaintExcludedStart (v : String) : Bool :=
  ["none", "transparent", "rgba(0,0,0,0)", "url(", "hsl(", "rgb("].any
    (fun p => p.data.isPrefixOf v.data)

/-- Claim C8's identifier rule in the specification's words: upper-case the first
letter of a segment. -/
def specCapitalize (seg : String) : String :=
  match seg.data with
  | [] => ""
  | c :: cs => String.mk (Char.toUpper c :: cs)

/-- Claim C8's concrete scenario input: a white 24x24 helper rect followed by a
black path. -/
def c8children : List Element :=
  [.mk "rect" [("width", "24"), ("height", "24"), ("fill", "#ffffff")] [],
   .mk "path" [("d", "M5 12h14"), ("fill", "#000000")] []]

/-- The expected principal element of claim C8's scenario. -/
def c8path : Element := .mk "path" [("d", "M5 12h14"), ("fill", "#000000")] []

/-- The opening-brace character of the template placeholder tokens, written by
code point. -/
def braceChar : Char := Char.ofNat 123

/-- Witness element for claim C6: a circle of radius 5 with a 2-unit stroke. -/
def c6circle : Element :=
  .mk "circle" [("cx", "12"), ("cy", "12"), ("r", "5"), ("stroke", "#000"), ("stroke-width", "2")] []

/-- Witness input for claim C10: a single stroked path with no children. -/
def c10children : List Element :=
  [.mk "path" [("d", "M4 4L20 20"), ("stroke", "#000")] []]

/-- A string is brace-free: none of the template placeholder tokens (all of which
are brace-delimited) can occur in it. -/
def noBrace (s : String) : Bool := s.data.all (fun c => !(c == braceChar))

/-! General-purpose helper lemmas (shared infrastructure for the claim theorems). -/

set_option maxRecDepth 16384

set_option maxHeartbeats 1000000

/-- An `if _ then true else b` equation unfolds to a disjunction. -/
theorem ite_true_or {c : Prop} [Decidable c] (b : Bool) :
    ((if c then true else b) = true) ↔ (c ∨ b = true) := by
  by_cases h : c <;> simp [h]

/-- `isPrefixOf` agrees with the existence of a completing tail. -/
theorem isPrefixOf_eq_true_iff {α : Type} [BEq α] [LawfulBEq α] :
    ∀ (l₁ l₂ : List α), l₁.isPrefixOf l₂ = true ↔ ∃ t, l₁ ++ t = l₂ := by
  intro l₁
  induction l₁ with
  | nil => intro l₂; simp [List.isPrefixOf]
  | cons a t ih =>
    intro l₂
    cases l₂ with
    | nil => simp [List.isPrefixOf]
    | cons b bs =>
      simp only [List.isPrefixOf, Bool.and_eq_true, beq_iff_eq, ih, List.cons_append,
        List.cons.injEq]
      constructor
      · rintro ⟨hab, s, hs⟩; exact ⟨s, hab, hs⟩
      · rintro ⟨s, hab, hs⟩; exact ⟨hab, s, hs⟩

/-- A list prefix is preserved under appending on the right. -/
theorem isPrefixOf_append_right {a b : List Char} (c : List Char)
    (h : a.isPrefixOf b = true) : a.isPrefixOf (b ++ c) = true := by
  obtain ⟨t, ht⟩ := (isPrefixOf_eq_true_iff a b).mp h
  exact (isPrefixOf_eq_true_iff a (b ++ c)).mpr ⟨t ++ c, by rw [← ht, List.append_assoc]⟩

/-- An occurrence in the left part survives appending on the right. -/
theorem listHasInfix_extend (sub a b : List Char) (h : listHasInfix sub a = true) :
    listHasInfix sub (a ++ b) = true := by
  induction a with
  | nil =>
    have hsub : sub = [] := by
      cases sub with
      | nil => rfl
      | cons x xs => simp [listHasInfix] at h
    subst hsub
    cases b <;> simp [listHasInfix]
  | cons c cs ih =>
    rw [List.cons_append]
    simp only [listHasInfix, Bool.or_eq_true] at h ⊢
    rcases h with h | h
    · exact Or.inl (by rw [← List.cons_append]; exact isPrefixOf_append_right b h)
    · exact Or.inr (ih h)

/-- An occurrence in the right part survives prepending on the left. -/
theorem listHasInfix_shift (sub a b : List Char) (h : listHasInfix sub b = true) :
    listHasInfix sub (a ++ b) = true := by
  induction a with
  | nil => simpa using h
  | cons c cs ih =>
    rw [List.cons_append]
    simp only [listHasInfix, Bool.or_eq_true]
    exact Or.inr ih

/-- String-level version of `listHasInfix_extend`. -/
theorem strIncludes_left (a b sub : String) (h : strIncludes a sub = true) :
    strIncludes (a ++ b) sub = true := by
  unfold strIncludes at *
  rw [String.data_append]
  exact listHasInfix_extend _ _ _ h

/-- String-level version of `listHasInfix_shift`. -/
theorem strIncludes_right (a b sub : String) (h : strIncludes b sub = true) :
    strIncludes (a ++ b) sub = true := by
  unfold strIncludes at *
  rw [String.data_append]
  exact listHasInfix_shift _ _ _ h

/-- Brace-freeness distributes over concatenation. -/
theorem noBrace_append (a b : String) : noBrace (a ++ b) = (noBrace a && noBrace b) := by
  simp [noBrace, String.data_append, List.all_append]

/-- Negated `any` is `all` of the negation. -/
theorem notAny_eq_allNot {α : Type} (f : α → Bool) (l : List α) :
    (!(l.any f)) = l.all (fun x => !(f x)) := by
  induction l with
  | nil => rfl
  | cons a t ih => simp [List.any_cons, List.all_cons, ← ih]

/-- `all` respects pointwise equality on the list's members. -/
theorem allCongrOn {α : Type} (p q : α → Bool) (l : List α) (h : ∀ e ∈ l, p e = q e) :
    l.all p = l.all q := by
  induction l with
  | nil => rfl
  | cons a t ih =>
    simp only [List.all_cons, h a (by simp), ih (fun e he => h e (by simp [he]))]

/-- The DOM-strategy classification agrees with the amended canonical-form rule on
every principal list. -/
theorem classify_eq_amended (l : List Element) :
    classifyMains l = specCanonicalAmendedMains l := by
  match l with
  | [] => rfl
  | [e] =>
    cases hp : (jsToLower e.tag == "path") <;> cases hc : e.children.isEmpty <;>
      simp [classifyMains, specCanonicalAmendedMains, hp, hc]
  | e1 :: e2 :: rest =>
    have hlen1 : ((e1 :: e2 :: rest).length == 1) = false :=
      beq_eq_false_iff_ne.mpr (by simp)
    have hlt : decide (1 < (e1 :: e2 :: rest).length) = true := by
      simp [List.length_cons]
    simp only [classifyMains, specCanonicalAmendedMains, hlen1, hlt, Bool.false_and,
      Bool.and_false, Bool.false_or, Bool.true_and, Bool.or_false]
    rw [notAny_eq_allNot, notAny_eq_allNot]
    simp only [Bool.not_not]
    cases hns : (e1 :: e2 :: rest).all (fun e => !elemHasStroke e) with
    | false => simp
    | true =>
      simp only [Bool.and_true]
      have hpo : (e1 :: e2 :: rest).all elemProperlyOutlined =
          (e1 :: e2 :: rest).all (fun e =>
            !(outlineCheckTags.contains (jsToLower e.tag)) || elemHasFill e ||
              elemHasStroke e) := by
        apply allCongrOn
        intro e he
        have hs : elemHasStroke e = false := by
          have := (List.all_eq_true.mp hns) e he
          simpa using this
        simp only [elemProperlyOutlined, hs]
        cases (outlineCheckTags.contains (jsToLower e.tag)) <;> cases (elemHasFill e) <;> rfl
      rw [hpo]
      exact Bool.and_comm _ _

/-- A quote-free text followed by a closing quote pins down what a
quote-terminated pattern can match: the text must equal the pattern's quote-free
part. -/
theorem quotefree_pat_determines (q : List Char) (hq : ∀ c ∈ q, c ≠ '"') :
    ∀ u : List Char, (∀ c ∈ u, c ≠ '"') →
      ((q ++ ['"']).isPrefixOf (u ++ ['"']) = true) → u = q := by
  induction q with
  | nil =>
    intro u hu h
    cases u with
    | nil => rfl
    | cons c cs =>
      exfalso
      simp only [List.nil_append, List.cons_append, List.isPrefixOf, Bool.and_eq_true,
        beq_iff_eq] at h
      exact hu c (by simp) h.1.symm
  | cons a q' ih =>
    intro u hu h
    cases u with
    | nil =>
      exfalso
      simp only [List.cons_append, List.nil_append, List.isPrefixOf, Bool.and_eq_true] at h
      rcases h with ⟨-, h2⟩
      cases q' <;> simp [List.isPrefixOf, List.append] at h2
    | cons c cs =>
      simp only [List.cons_append, List.isPrefixOf, Bool.and_eq_true, beq_iff_eq] at h
      obtain ⟨hac, hrest⟩ := h
      have hcs : cs = q' :=
        ih (fun x hx => hq x (by simp [hx])) cs (fun x hx => hu x (by simp [hx])) hrest
      rw [← hac, hcs]

/-- A paint-rewrite match can never start at a character other than `f` or `s`. -/
theorem tryPaint_none_head (c : Char) (rest : List Char) (h1 : c ≠ 'f') (h2 : c ≠ 's') :
    tryPaintMatchAt (c :: rest) = none := by
  have hf : ("fill=\"".data.isPrefixOf (c :: rest)) = false := by
    show (('f' == c) && _) = false
    rw [beq_eq_false_iff_ne.mpr (Ne.symm h1), Bool.false_and]
  have hs : ("stroke=\"".data.isPrefixOf (c :: rest)) = false := by
    show (('s' == c) && _) = false
    rw [beq_eq_false_iff_ne.mpr (Ne.symm h2), Bool.false_and]
  simp [tryPaintMatchAt, hf, hs]

/-- A paint-rewrite match can never start inside a quote-free run that is closed by
the attribute's own closing quote. -/
theorem tryPaint_none_of_quotefree (u : List Char) (hu : ∀ c ∈ u, c ≠ '"') :
    tryPaintMatchAt (u ++ ['"']) = none := by
  by_cases hf : "fill=\"".data.isPrefixOf (u ++ ['"']) = true
  · have hsplit : ("fill=".data ++ ['"'] : List Char) = "fill=\"".data := by decide
    rw [← hsplit] at hf
    have hu' : u = "fill=".data :=
      quotefree_pat_determines "fill=".data (by decide) u hu hf
    rw [hu', hsplit]
    decide
  · by_cases hs : "stroke=\"".data.isPrefixOf (u ++ ['"']) = true
    · have hsplit : ("stroke=".data ++ ['"'] : List Char) = "stroke=\"".data := by decide
      rw [← hsplit] at hs
      have hu' : u = "stroke=".data :=
        quotefree_pat_determines "stroke=".data (by decide) u hu hs
      rw [hu', hsplit]
      decide
    · simp only [tryPaintMatchAt]
      rw [if_neg hf, if_neg hs]

/-- The replace loop on the empty text. -/
theorem go_nil (f : Nat) : replacePaintGo f [] = [] := by cases f <;> rfl

/-- One non-matching step of the replace loop. -/
theorem go_step (c : Char) (rest : List Char) (f : Nat)
    (h : tryPaintMatchAt (c :: rest) = none) :
    replacePaintGo (f + 1) (c :: rest) = c :: replacePaintGo f rest := by
  simp [replacePaintGo, h]

/-- One matching step of the replace loop. -/
theorem go_step_match (c : Char) (rest rep restL : List Char) (f : Nat)
    (h : tryPaintMatchAt (c :: rest) = some (rep, restL)) :
    replacePaintGo (f + 1) (c :: rest) = rep ++ replacePaintGo f restL := by
  simp [replacePaintGo, h]

/-- The replace loop passes a quote-free, quote-terminated run unchanged. -/
theorem go_skip_quotefree : ∀ (u : List Char) (f : Nat), (∀ c ∈ u, c ≠ '"') →
    replacePaintGo (f + (u.length + 1)) (u ++ ['"']) = u ++ ['"'] := by
  intro u
  induction u with
  | nil =>
    intro f _
    have h0 : tryPaintMatchAt ['"'] = none := by decide
    show replacePaintGo (f + 1) ['"'] = ['"']
    rw [go_step _ _ _ h0, go_nil]
  | cons c cs ih =>
    intro f hu
    have hm : tryPaintMatchAt ((c :: cs) ++ ['"']) = none :=
      tryPaint_none_of_quotefree (c :: cs) hu
    have hlen : f + ((c :: cs).length + 1) = (f + (cs.length + 1)) + 1 := by
      simp [List.length_cons]; omega
    rw [hlen, List.cons_append,
      go_step _ _ _ (by rw [← List.cons_append]; exact hm)]
    rw [← List.cons_append]
    have := ih (f) (fun x hx => hu x (by simp [hx]))
    rw [List.cons_append]
    rw [this]

/-- The replace loop passes a run of non-`f`, non-`s` characters unchanged. -/
theorem go_skip_chars (hd : List Char) (L : List Char) (f : Nat)
    (hhd : ∀ c ∈ hd, c ≠ 'f' ∧ c ≠ 's') :
    replacePaintGo (f + hd.length) (hd ++ L) = hd ++ replacePaintGo f L := by
  induction hd with
  | nil => simp
  | cons c cs ih =>
    have hlen : f + (c :: cs).length = (f + cs.length) + 1 := by
      simp [List.length_cons]; omega
    rw [hlen, List.cons_append,
      go_step _ _ _ (tryPaint_none_head c (cs ++ L) (hhd c (by simp)).1 (hhd c (by simp)).2)]
    rw [ih (fun x hx => hhd x (by simp [hx])), List.cons_append]

/-- A quote-free pattern's prefix test cannot see past a closing quote. -/
theorem isPrefixOf_cut (p : List Char) (hp : ∀ c ∈ p, c ≠ '"') :
    ∀ (u : List Char), (∀ c ∈ u, c ≠ '"') → ∀ t : List Char,
      p.isPrefixOf (u ++ '"' :: t) = p.isPrefixOf u := by
  induction p with
  | nil => intro u _ t; cases u <;> rfl
  | cons a p' ih =>
    intro u hu t
    cases u with
    | nil =>
      simp only [List.nil_append, List.isPrefixOf]
      rw [beq_eq_false_iff_ne.mpr (hp a (by simp)), Bool.false_and]
    | cons c cs =>
      simp only [List.cons_append, List.isPrefixOf, List.append_eq]
      rw [ih (fun x hx => hp x (by simp [hx])) cs (fun x hx => hu x (by simp [hx])) t]

/-- The negative lookahead only inspects the value up to its closing quote. -/
theorem lookahead_cut (v : List Char) (hv : ∀ c ∈ v, c ≠ '"') (t : List Char) :
    paintExcludedLookahead (v ++ '"' :: t) = paintExcludedLookahead v := by
  simp only [paintExcludedLookahead, List.any_cons, List.any_nil]
  rw [isPrefixOf_cut "none".data (by decide) v hv t,
    isPrefixOf_cut "transparent".data (by decide) v hv t,
    isPrefixOf_cut "rgba(0,0,0,0)".data (by decide) v hv t,
    isPrefixOf_cut "url(".data (by decide) v hv t,
    isPrefixOf_cut "hsl(".data (by decide) v hv t,
    isPrefixOf_cut "rgb(".data (by decide) v hv t]

/-- `[^"]*` consumes exactly the quote-free run. -/
theorem takeWhile_quotefree (v : List Char) (hv : ∀ c ∈ v, c ≠ '"') (t : List Char) :
    (v ++ '"' :: t).takeWhile (fun c => c != '"') = v := by
  induction v with
  | nil => simp [List.takeWhile_cons]
  | cons c cs ih =>
    rw [List.cons_append, List.takeWhile_cons]
    have hc : (c != '"') = true := bne_iff_ne.mpr (hv c (by simp))
    rw [hc]
    simp only [if_true]
    rw [ih (fun x hx => hv x (by simp [hx]))]

/-- Characterization of one `fill="..."` match attempt on a quote-free value. -/
theorem tryPaint_fill (v : List Char) (hv : ∀ c ∈ v, c ≠ '"') (t : List Char) :
    tryPaintMatchAt ("fill=\"".data ++ (v ++ '"' :: t)) =
      if paintExcludedLookahead v then none
      else some ("fill=\"currentColor\"".data, t) := by
  have hpre : "fill=\"".data.isPrefixOf ("fill=\"".data ++ (v ++ '"' :: t)) = true :=
    (isPrefixOf_eq_true_iff _ _).mpr ⟨v ++ '"' :: t, rfl⟩
  simp only [tryPaintMatchAt, hpre, if_true]
  have hdrop : ("fill=\"".data ++ (v ++ '"' :: t)).drop 6 = v ++ '"' :: t := by
    have h := List.drop_left "fill=\"".data (v ++ '"' :: t)
    simpa using h
  rw [hdrop]
  simp only [paintAttempt, lookahead_cut v hv t]
  by_cases hex : paintExcludedLookahead v = true
  · rw [if_pos hex, if_pos hex]
  · rw [if_neg hex, if_neg hex]
    rw [takeWhile_quotefree v hv t, List.drop_left v ('"' :: t)]
    have hcc : ("fill" ++ "=\"currentColor\"").data = "fill=\"currentColor\"".data := by decide
    rw [hcc]

/-- Characterization of one `stroke="..."` match attempt on a quote-free value. -/
theorem tryPaint_stroke (v : List Char) (hv : ∀ c ∈ v, c ≠ '"') (t : List Char) :
    tryPaintMatchAt ("stroke=\"".data ++ (v ++ '"' :: t)) =
      if paintExcludedLookahead v then none
      else some ("stroke=\"currentColor\"".data, t) := by
  have hnf : "fill=\"".data.isPrefixOf ("stroke=\"".data ++ (v ++ '"' :: t)) = false := by
    show (('f' == 's') && _) = false
    rw [show ('f' == 's') = false from by decide, Bool.false_and]
  have hpre : "stroke=\"".data.isPrefixOf ("stroke=\"".data ++ (v ++ '"' :: t)) = true :=
    (isPrefixOf_eq_true_iff _ _).mpr ⟨v ++ '"' :: t, rfl⟩
  simp only [tryPaintMatchAt, hnf, hpre, if_true, Bool.false_eq_true, if_false]
  have hdrop : ("stroke=\"".data ++ (v ++ '"' :: t)).drop 8 = v ++ '"' :: t := by
    have h := List.drop_left "stroke=\"".data (v ++ '"' :: t)
    simpa using h
  rw [hdrop]
  simp only [paintAttempt, lookahead_cut v hv t]
  by_cases hex : paintExcludedLookahead v = true
  · rw [if_pos hex, if_pos hex]
  · rw [if_neg hex, if_neg hex]
    rw [takeWhile_quotefree v hv t, List.drop_left v ('"' :: t)]
    have hcc : ("stroke" ++ "=\"currentColor\"").data = "stroke=\"currentColor\"".data := by decide
    rw [hcc]

/-- Full behaviour of the replace loop on one `fill="value"` text. -/
theorem goPaint_fill (v : List Char) (hv : ∀ c ∈ v, c ≠ '"') :
    replacePaintGo ((v.length + 1) + 6) ("fill=\"".data ++ (v ++ ['"'])) =
      (if paintExcludedLookahead v then "fill=\"".data ++ (v ++ ['"'])
       else "fill=\"currentColor\"".data) := by
  have hmain := tryPaint_fill v hv []
  by_cases hex : paintExcludedLookahead v = true
  · rw [if_pos hex] at hmain ⊢
    rw [show ((v.length + 1) + 6) = (((v.length + 1) + 5) + 1) from by omega]
    rw [show ("fill=\"".data ++ (v ++ ['"'])) = 'f' :: ("ill=\"".data ++ (v ++ ['"'])) from rfl]
    rw [go_step _ _ _ (by
      rw [show ('f' :: ("ill=\"".data ++ (v ++ ['"']))) =
        ("fill=\"".data ++ (v ++ '"' :: [])) from rfl]
      exact hmain)]
    rw [show ((v.length + 1) + 5) = ((v.length + 1) + ("ill=\"".data).length) from by
      rw [show ("ill=\"".data).length = 5 from rfl]]
    rw [go_skip_chars "ill=\"".data (v ++ ['"']) (v.length + 1) (by decide)]
    rw [show ((v.length + 1) : Nat) = 0 + (v.length + 1) from by omega]
    rw [go_skip_quotefree v 0 hv]
  · rw [if_neg hex] at hmain ⊢
    rw [show ((v.length + 1) + 6) = (((v.length + 1) + 5) + 1) from by omega]
    rw [show ("fill=\"".data ++ (v ++ ['"'])) = 'f' :: ("ill=\"".data ++ (v ++ ['"'])) from rfl]
    rw [go_step_match _ _ _ _ _ (by
      rw [show ('f' :: ("ill=\"".data ++ (v ++ ['"']))) =
        ("fill=\"".data ++ (v ++ '"' :: [])) from rfl]
      exact hmain)]
    rw [go_nil, List.append_nil]

/-- Full behaviour of the replace loop on one `stroke="value"` text. -/
theorem goPaint_stroke (v : List Char) (hv : ∀ c ∈ v, c ≠ '"') :
    replacePaintGo ((v.length + 1) + 8) ("stroke=\"".data ++ (v ++ ['"'])) =
      (if paintExcludedLookahead v then "stroke=\"".data ++ (v ++ ['"'])
       else "stroke=\"currentColor\"".data) := by
  have hmain := tryPaint_stroke v hv []
  by_cases hex : paintExcludedLookahead v = true
  · rw [if_pos hex] at hmain ⊢
    rw [show ((v.length + 1) + 8) = (((v.length + 1) + 7) + 1) from by omega]
    rw [show ("stroke=\"".data ++ (v ++ ['"'])) =
      's' :: ("troke=\"".data ++ (v ++ ['"'])) from rfl]
    rw [go_step _ _ _ (by
      rw [show ('s' :: ("troke=\"".data ++ (v ++ ['"']))) =
        ("stroke=\"".data ++ (v ++ '"' :: [])) from rfl]
      exact hmain)]
    rw [show ((v.length + 1) + 7) = ((v.length + 1) + ("troke=\"".data).length) from by
      rw [show ("troke=\"".data).length = 7 from rfl]]
    rw [go_skip_chars "troke=\"".data (v ++ ['"']) (v.length + 1) (by decide)]
    rw [show ((v.length + 1) : Nat) = 0 + (v.length + 1) from by omega]
    rw [go_skip_quotefree v 0 hv]
  · rw [if_neg hex] at hmain ⊢
    rw [show ((v.length + 1) + 8) = (((v.length + 1) + 7) + 1) from by omega]
    rw [show ("stroke=\"".data ++ (v ++ ['"'])) =
      's' :: ("troke=\"".data ++ (v ++ ['"'])) from rfl]
    rw [go_step_match _ _ _ _ _ (by
      rw [show ('s' :: ("troke=\"".data ++ (v ++ ['"']))) =
        ("stroke=\"".data ++ (v ++ '"' :: [])) from rfl]
      exact hmain)]
    rw [go_nil, List.append_nil]

/-- The fallback paint rewrite on one whole attribute text: the value is kept
exactly when it begins with one of the lookahead's six alternatives, else it is
replaced by `currentColor`. -/
theorem jsReplacePaint_attr (attr v : String)
    (ha : attr = "fill" ∨ attr = "stroke") (hv : ∀ c ∈ v.data, c ≠ '"') :
    jsReplacePaint (attr ++ "=\"" ++ v ++ "\"") =
      attr ++ "=\"" ++ (if specPaintExcludedStart v then v else "currentColor") ++ "\"" := by
  have hspec : specPaintExcludedStart v = paintExcludedLookahead v.data := rfl
  rcases ha with ha | ha <;> subst ha
  · have hfuse : ("fill" ++ "=\"" : String) = "fill=\"" := by decide
    rw [hfuse]
    apply String.ext
    show replacePaintGo ("fill=\"" ++ v ++ "\"").data.length ("fill=\"" ++ v ++ "\"").data = _
    have hD : ("fill=\"" ++ v ++ "\"").data = "fill=\"".data ++ (v.data ++ ['"']) := by
      rw [String.data_append, String.data_append, List.append_assoc]
    have hN : ("fill=\"" ++ v ++ "\"").data.length = (v.data.length + 1) + 6 := by
      rw [hD]
      simp [List.length_append]
    rw [hN, hD, goPaint_fill v.data hv, hspec]
    by_cases hex : paintExcludedLookahead v.data = true
    · rw [if_pos hex, if_pos hex]
      exact hD.symm
    · rw [if_neg hex, if_neg hex]
      decide
  · have hfuse : ("stroke" ++ "=\"" : String) = "stroke=\"" := by decide
    rw [hfuse]
    apply String.ext
    show replacePaintGo ("stroke=\"" ++ v ++ "\"").data.length ("stroke=\"" ++ v ++ "\"").data = _
    have hD : ("stroke=\"" ++ v ++ "\"").data = "stroke=\"".data ++ (v.data ++ ['"']) := by
      rw [String.data_append, String.data_append, List.append_assoc]
    have hN : ("stroke=\"" ++ v ++ "\"").data.length = (v.data.length + 1) + 8 := by
      rw [hD]
      simp [List.length_append]
    rw [hN, hD, goPaint_stroke v.data hv, hspec]
    by_cases hex : paintExcludedLookahead v.data = true
    · rw [if_pos hex, if_pos hex]
      exact hD.symm
    · rw [if_neg hex, if_neg hex]
      decide

/-- Concrete `parseFloat` evaluations used by the C6 witness (the rational
arithmetic is normalized by `norm_num`; the string scanning reduces
definitionally). -/
theorem parseFloat_twelve : parseFloatJ "12" = some 12 := by
  rw [show parseFloatJ "12" =
    some ((1 : ℚ) * (((12 : ℕ) : ℚ) + ((0 : ℕ) : ℚ) / 10 ^ (0 : ℕ))) from rfl]
  norm_num

/-- `parseFloat "5"`. -/
theorem parseFloat_five : parseFloatJ "5" = some 5 := by
  rw [show parseFloatJ "5" =
    some ((1 : ℚ) * (((5 : ℕ) : ℚ) + ((0 : ℕ) : ℚ) / 10 ^ (0 : ℕ))) from rfl]
  norm_num

/-- `parseFloat "2"`. -/
theorem parseFloat_two : parseFloatJ "2" = some 2 := by
  rw [show parseFloatJ "2" =
    some ((1 : ℚ) * (((2 : ℕ) : ℚ) + ((0 : ℕ) : ℚ) / 10 ^ (0 : ℕ))) from rfl]
  norm_num

/-! The claim theorems. -/

/-- C1 (counterexample): the claim's canonical-form rule, as stated, disagrees
with the code on `c1ex` — a well-formed path plus a `line` element with neither
fill nor stroke. The code classifies it canonical (the well-formedness check
skips `line` tags); the claim's rule does not (the `line` is not well-formed). -/
theorem c1_counterexample :
    (processSvgDom (some "0 0 24 24") c1ex "icon").isSinglePath = true ∧
    specCanonicalDom c1ex = false := ⟨rfl, rfl⟩

/-- C1 (amended): the flatness classification of the DOM strategy is exactly the
claim's rule with the well-formedness requirement restricted to elements whose
tag is in `outlineCheckTags` (so not to `line` elements). -/
theorem c1_flatness_amended (vb : Option String) (children : List Element) (name : String) :
    (processSvgDom vb children name).isSinglePath = specCanonicalAmendedDom children := by
  show isSinglePathDom children = specCanonicalAmendedDom children
  unfold isSinglePathDom specCanonicalAmendedDom
  exact classify_eq_amended (mainElementsOf children)

/-- C2: an error raised by any stage is absorbed: the result is the fixed fallback
component, whose `isSinglePath` is false, whose markup is the jsx template around
the generic placeholder glyph path, and whose source definition is the same
template wrapped around that fallback jsx; and deliberately malformed markup
(an unterminated tag) processed by the text strategy yields a result (with
`isSinglePath = false`) rather than a propagated exception. -/
theorem c2_error_fallback_total (err name : String) :
    processSvgToReactTotal (Except.error err) name = fallbackResult name ∧
    (fallbackResult name).isSinglePath = false ∧
    strIncludes (fallbackResult name).jsx fallbackGlyphElement = true ∧
    (fallbackResult name).reactCode =
      mkReactCodeCore (getComponentName name) " (fallback)" fallbackJsx ∧
    (processSvgFallback "<svg viewBox=\"0 0 24 24\"><path d=\"M5 12h14\"" name).isSinglePath =
      false := by
  refine ⟨rfl, rfl, ?_, rfl, rfl⟩
  show strIncludes fallbackJsx fallbackGlyphElement = true
  decide

/-- C3 (counterexample): the claim promises `isSinglePath = false` for nested
principal elements under both strategies, but the text-pattern fallback does not
detect nesting: on `c3markup` (an outer path nesting a self-closing child path,
as the element view `c3outer` shows) it returns true. -/
theorem c3_counterexample :
    (mainElementsOf [c3outer]).any (fun e => !e.children.isEmpty) = true ∧
    (processSvgFallback c3markup "icon").isSinglePath = true := ⟨rfl, rfl⟩

/-- C3 (amended): under the structured-DOM strategy, a principal element with
child elements always forces `isSinglePath = false`. -/
theorem c3_nested_amended (vb : Option String) (children : List Element) (name : String)
    (h : (mainElementsOf children).any (fun e => !e.children.isEmpty) = true) :
    (processSvgDom vb children name).isSinglePath = false := by
  show isSinglePathDom children = false
  simp [isSinglePathDom, classifyMains, h]

/-- Witness for C3 (amended) at the concrete nested input. -/
theorem c3_nested_amended_witness :
    (processSvgDom (some "0 0 24 24") [c3outer] "icon").isSinglePath = false :=
  c3_nested_amended (some "0 0 24 24") [c3outer] "icon" rfl

/-- C4: `isHelperElement` classifies an element as a helper exactly under the
claim's rule (white-filled rect, 24x24 rect, or helper-like id/class text), and a
helper never enters the principal element list (so it neither appears in the
emitted markup nor affects classification, both of which are computed from that
list). -/
theorem c4_helper_classification :
    (∀ e : Element, isHelperElement e = true ↔ helperSpec e) ∧
    (∀ (children : List Element) (e : Element), e ∈ mainElementsOf children →
      isHelperElement e = false) := by
  constructor
  · intro e
    have hmap : ∀ o : Option String, (o.map jsToLower).getD "" = jsToLower (o.getD "") := by
      intro o; cases o <;> rfl
    simp only [isHelperElement, hmap]
    rw [ite_true_or, ite_true_or]
    simp only [Bool.and_eq_true, Bool.or_eq_true, beq_iff_eq, helperSpec]
    tauto
  · intro children e he
    simp only [mainElementsOf] at he
    split at he
    · have h := (List.mem_filter.mp he).2
      simpa using h
    · have h := (List.mem_filter.mp he).2
      simp only [Bool.and_eq_true] at h
      simpa using h.1

/-- Witness for C4 at a concrete non-helper path inside a principal list. -/
theorem c4_helper_classification_witness :
    isHelperElement (Element.mk "path" [("d", "M5 12h14")] []) = false :=
  c4_helper_classification.2 [Element.mk "path" [("d", "M5 12h14")] []]
    (Element.mk "path" [("d", "M5 12h14")] [])
    (by
      rw [show mainElementsOf [Element.mk "path" [("d", "M5 12h14")] []] =
        [Element.mk "path" [("d", "M5 12h14")] []] from rfl]
      exact List.mem_singleton.mpr rfl)

/-- C5 (counterexample): the claim says `strokeToOutline` returns null for a path
(an unhandled tag), but on a stroked path carrying a `d` attribute the source
falls through to `getAttribute('d')` and returns that text, not null. -/
theorem c5_counterexample :
    c5ClaimNullCond c5ex ∧ strokeToOutline c5ex = some "M0 0" :=
  ⟨Or.inr (Or.inr (Or.inr (Or.inl rfl))), rfl⟩

/-- C5 (amended): `strokeToOutline` returns null exactly when the stroke is
absent, empty, `none` or `transparent`, or the tag is not one of line, circle,
rect AND the element has no `d` attribute (an unhandled tag with a `d` attribute
passes the original path data through by value, not by null). -/
theorem c5_outline_null_amended (e : Element) :
    strokeToOutline e = none ↔
      ((e.getAttr "stroke" = none ∨ e.getAttr "stroke" = some "" ∨
        e.getAttr "stroke" = some "none" ∨ e.getAttr "stroke" = some "transparent") ∨
       (jsToLower e.tag ≠ "line" ∧ jsToLower e.tag ≠ "circle" ∧ jsToLower e.tag ≠ "rect" ∧
        e.getAttr "d" = none)) := by
  cases hst : e.getAttr "stroke" with
  | none => simp [strokeToOutline, hst]
  | some sv =>
    by_cases h1 : sv = ""
    · simp [strokeToOutline, hst, h1]
    · by_cases h2 : sv = "none"
      · simp [strokeToOutline, hst, h2]
      · by_cases h3 : sv = "transparent"
        · simp [strokeToOutline, hst, h3]
        · have b1 : (sv == "") = false := beq_eq_false_iff_ne.mpr h1
          have b2 : (sv == "none") = false := beq_eq_false_iff_ne.mpr h2
          have b3 : (sv == "transparent") = false := beq_eq_false_iff_ne.mpr h3
          by_cases t1 : jsToLower e.tag = "line"
          · simp [strokeToOutline, hst, b1, b2, b3, t1, h1, h2, h3]
          · by_cases t2 : jsToLower e.tag = "circle"
            · simp [strokeToOutline, hst, b1, b2, b3, t1, t2, h1, h2, h3]
            · by_cases t3 : jsToLower e.tag = "rect"
              · simp [strokeToOutline, hst, b1, b2, b3, t1, t2, t3, h1, h2, h3]
              · have bt1 : (jsToLower e.tag == "line") = false := beq_eq_false_iff_ne.mpr t1
                have bt2 : (jsToLower e.tag == "circle") = false := beq_eq_false_iff_ne.mpr t2
                have bt3 : (jsToLower e.tag == "rect") = false := beq_eq_false_iff_ne.mpr t3
                simp [strokeToOutline, hst, b1, b2, b3, bt1, bt2, bt3, t1, t2, t3, h1, h2, h3]

/-- C6: on a circle with a convertible stroke whose attributes parse to the
rationals `cx cy r w`, `strokeToOutline` emits the single filled disc of radius
`r + w/2` when `r - w/2 ≤ 0`, and otherwise the two concentric sub-paths of radii
`r + w/2` (sweep 1) and `r - w/2` (opposite sweep 0) forming a ring. -/
theorem c6_circle_outline (e : Element) (sv : String) (cx cy r w : ℚ)
    (htag : jsToLower e.tag = "circle")
    (hs : e.getAttr "stroke" = some sv)
    (h1 : sv ≠ "") (h2 : sv ≠ "none") (h3 : sv ≠ "transparent")
    (hcx : parseFloatJ (attrOr e "cx" "0") = some cx)
    (hcy : parseFloatJ (attrOr e "cy" "0") = some cy)
    (hr : parseFloatJ (attrOr e "r" "0") = some r)
    (hw : parseFloatJ (attrOr e "stroke-width" "1") = some w) :
    strokeToOutline e =
      some (if r - w / 2 ≤ 0 then circleDiscPath (some cx) (some cy) (some (r + w / 2))
            else circleRingPath (some cx) (some cy) (some (r + w / 2)) (some (r - w / 2))) := by
  simp only [strokeToOutline, hs]
  rw [if_neg (by simp [h1, h2, h3]), if_neg (by simp [htag]), if_pos (by simp [htag])]
  rw [hcx, hcy, hr, hw]
  simp only [circleOutline, JNum.add, JNum.half, JNum.sub, JNum.max0, JNum.leZero]
  by_cases hle : r - w / 2 ≤ 0
  · rw [if_pos (by simpa using max_le_iff.mpr ⟨le_refl (0 : ℚ), hle⟩), if_pos hle]
  · have hpos : (0 : ℚ) < r - w / 2 := not_le.mp hle
    rw [max_eq_right (le_of_lt hpos)]
    rw [if_neg (by simpa using hle), if_neg hle]

/-- Witness for C6 at the concrete circle `c6circle` (radius 5, stroke width 2:
the ring branch). -/
theorem c6_circle_outline_witness :
    strokeToOutline c6circle =
      some (if (5 : ℚ) - 2 / 2 ≤ 0 then
              circleDiscPath (some 12) (some 12) (some (5 + 2 / 2))
            else
              circleRingPath (some 12) (some 12) (some (5 + 2 / 2)) (some (5 - 2 / 2))) :=
  c6_circle_outline c6circle "#000" 12 12 5 2 rfl rfl (by decide) (by decide) (by decide)
    parseFloat_twelve parseFloat_twelve parseFloat_five parseFloat_two

/-- C7 (counterexample): the claim's rewrite rule fails on the text-pattern
strategy: the value `nonefoo` is in none of the claim's excluded classes, yet the
fallback renderer leaves `fill="nonefoo"` untouched, because the regex lookahead
excludes by prefix, not by exact match. -/
theorem c7_counterexample :
    specPaintExcludedExact "nonefoo" = false ∧
    transformAttrValue "fill" "nonefoo" = "currentColor" ∧
    strIncludes (transformFallbackElement "<path fill=\"nonefoo\" d=\"M0 0\"/>")
      "fill=\"nonefoo\"" = true := ⟨by decide, rfl, by decide⟩

/-- C7 (amended): the DOM strategy rewrites a `fill`/`stroke` value to
`currentColor` exactly when it is outside the exact-match excluded classes, while
the text-fallback strategy excludes by *prefix*: a quote-free value is kept
exactly when it begins with one of the six lookahead alternatives. -/
theorem c7_paint_rewrite_amended :
    (∀ n v : String, (n = "fill" ∨ n = "stroke") →
      transformAttrValue n v = if specPaintExcludedExact v then v else "currentColor") ∧
    (∀ attr v : String, (attr = "fill" ∨ attr = "stroke") → (∀ c ∈ v.data, c ≠ '"') →
      jsReplacePaint (attr ++ "=\"" ++ v ++ "\"") =
        attr ++ "=\"" ++ (if specPaintExcludedStart v then v else "currentColor") ++ "\"") := by
  constructor
  · intro n v h
    have hname : (n == "fill" || n == "stroke") = true := by
      rcases h with h | h <;> simp [h]
    cases hex : specPaintExcludedExact v with
    | true =>
      simp only [specPaintExcludedExact, Bool.or_eq_true, beq_iff_eq] at hex
      rcases hex with ((((hx | hx) | hx) | hx) | hx) | hx <;>
        simp [transformAttrValue, hname, hx]
    | false =>
      simp only [specPaintExcludedExact, Bool.or_eq_false_iff, beq_eq_false_iff_ne] at hex
      obtain ⟨⟨⟨⟨⟨x1, x2⟩, x3⟩, x4⟩, x5⟩, x6⟩ := hex
      simp [transformAttrValue, hname, x1, x2, x3, x4, x5, x6]
  · intro attr v ha hv
    exact jsReplacePaint_attr attr v ha hv

/-- Witness for C7 (amended) at concrete values on both strategies. -/
theorem c7_paint_rewrite_amended_witness :
    transformAttrValue "fill" "#123456" =
      (if specPaintExcludedExact "#123456" then "#123456" else "currentColor") ∧
    jsReplacePaint ("fill" ++ "=\"" ++ "red" ++ "\"") =
      "fill" ++ "=\"" ++ (if specPaintExcludedStart "red" then "red" else "currentColor") ++
        "\"" :=
  ⟨c7_paint_rewrite_amended.1 "fill" "#123456" (Or.inl rfl),
   c7_paint_rewrite_amended.2 "fill" "red" (Or.inl rfl) (by decide)⟩

/-- C8: `getComponentName` is split-on-hyphen, capitalize-each-segment,
concatenate, append `Icon`; and on the concrete scenario the helper rect is
dropped, the single kept path's fill is rewritten to `currentColor`, no rect
appears in the emitted markup, the identifier is `ArrowRightIcon`, and
`isSinglePath` is true. -/
theorem c8_concrete_scenario :
    (∀ name : String, getComponentName name =
      String.join ((jsSplitDash name).map specCapitalize) ++ "Icon") ∧
    (processSvgDom (some "0 0 24 24") c8children "arrow-right").componentName =
      "ArrowRightIcon" ∧
    mainElementsOf c8children = [c8path] ∧
    strIncludes (childElementsDom c8children) "<rect" = false ∧
    strIncludes (childElementsDom c8children) "fill=\"currentColor\"" = true ∧
    (processSvgDom (some "0 0 24 24") c8children "arrow-right").isSinglePath = true := by
  refine ⟨?_, rfl, rfl, by decide, by decide, rfl⟩
  intro name
  have h : jsCapitalizeFirst = specCapitalize := by
    funext s
    rfl
  rw [getComponentName, h]

/-- C9 (counterexample): on the error-fallback branch, `previewSvg` is the
fallback jsx itself: it carries the `width=\x7bsize || 24\x7d` placeholder and no
fixed `width="24"` — contradicting the claim's "for every input, including the
error-fallback branch". -/
theorem c9_counterexample :
    (processSvgToReactTotal (Except.error "boom") "icon").previewSvg =
      (processSvgToReactTotal (Except.error "boom") "icon").jsx ∧
    strIncludes (processSvgToReactTotal (Except.error "boom") "icon").previewSvg
      "width=\x7bsize || 24\x7d" = true ∧
    strIncludes (processSvgToReactTotal (Except.error "boom") "icon").previewSvg
      "width=\"24\"" = false := by
  refine ⟨rfl, ?_, ?_⟩
  · show strIncludes fallbackJsx "width=\x7bsize || 24\x7d" = true
    decide
  · show strIncludes fallbackJsx "width=\"24\"" = false
    decide

/-- C9 (amended): on the normal (non-error) paths the claim holds: the jsx
rendering carries all four placeholder tokens; the preview rendering is
brace-free (hence placeholder-free) whenever the view-box and child markup are,
and carries the fixed `width="24"`/`height="24"`; both renderings embed the same
child-element text; and both strategies produce their two renderings from the
same view-box and child text via these two templates. -/
theorem c9_renderings_amended :
    (∀ vb ce : String,
      strIncludes (mkJsx vb ce) "\x7bsize || 24\x7d" = true ∧
      strIncludes (mkJsx vb ce) "\x7bclassName\x7d" = true ∧
      strIncludes (mkJsx vb ce) "\x7bref\x7d" = true ∧
      strIncludes (mkJsx vb ce) "\x7b...props\x7d" = true) ∧
    (∀ vb ce : String, noBrace vb = true → noBrace ce = true →
      noBrace (mkPreviewSvg vb ce) = true ∧
      strIncludes (mkPreviewSvg vb ce) "width=\"24\"" = true ∧
      strIncludes (mkPreviewSvg vb ce) "height=\"24\"" = true) ∧
    (∀ vb ce : String, ∃ p q, mkPreviewSvg vb ce = p ++ ce ++ q ∧
      ∃ p2 q2, mkJsx vb ce = p2 ++ ce ++ q2) ∧
    (∀ (vbAttr : Option String) (children : List Element) (name : String),
      ∃ vb ce, (processSvgDom vbAttr children name).jsx = mkJsx vb ce ∧
        (processSvgDom vbAttr children name).previewSvg = mkPreviewSvg vb ce) ∧
    (∀ sc name : String,
      ∃ vb ce, (processSvgFallback sc name).jsx = mkJsx vb ce ∧
        (processSvgFallback sc name).previewSvg = mkPreviewSvg vb ce) := by
  refine ⟨?_, ?_, ?_, ?_, ?_⟩
  · intro vb ce
    refine ⟨?_, ?_, ?_, ?_⟩
    · unfold mkJsx
      apply strIncludes_left
      apply strIncludes_left
      apply strIncludes_left
      apply strIncludes_left
      decide
    · unfold mkJsx
      apply strIncludes_left
      apply strIncludes_left
      apply strIncludes_right
      decide
    · unfold mkJsx
      apply strIncludes_left
      apply strIncludes_left
      apply strIncludes_right
      decide
    · unfold mkJsx
      apply strIncludes_left
      apply strIncludes_left
      apply strIncludes_right
      decide
  · intro vb ce hvb hce
    refine ⟨?_, ?_, ?_⟩
    · unfold mkPreviewSvg
      rw [noBrace_append, noBrace_append, noBrace_append, noBrace_append, hvb, hce]
      decide
    · unfold mkPreviewSvg
      apply strIncludes_left
      apply strIncludes_left
      apply strIncludes_left
      apply strIncludes_left
      decide
    · unfold mkPreviewSvg
      apply strIncludes_left
      apply strIncludes_left
      apply strIncludes_left
      apply strIncludes_left
      decide
  · intro vb ce
    exact ⟨_, _, rfl, _, _, rfl⟩
  · intro vbAttr children name
    exact ⟨_, _, rfl, rfl⟩
  · intro sc name
    exact ⟨_, _, rfl, rfl⟩

/-- Witness for C9 (amended) at a concrete brace-free view-box and child text. -/
theorem c9_renderings_amended_witness :
    noBrace (mkPreviewSvg "0 0 24 24" "<path d=\"M5 12h14\" fill=\"currentColor\" />") =
      true ∧
    strIncludes (mkPreviewSvg "0 0 24 24" "<path d=\"M5 12h14\" fill=\"currentColor\" />")
      "width=\"24\"" = true :=
  ⟨(c9_renderings_amended.2.1 "0 0 24 24" "<path d=\"M5 12h14\" fill=\"currentColor\" />"
      (by decide) (by decide)).1,
   (c9_renderings_amended.2.1 "0 0 24 24" "<path d=\"M5 12h14\" fill=\"currentColor\" />"
      (by decide) (by decide)).2.1⟩

/-- C10 (implicit): in the DOM strategy a single non-nested principal path is
classified canonical even when it carries a convertible stroke — the stroke check
is consulted only in the multiple-element branch. -/
theorem c10_single_stroked_path (vb : Option String) (children : List Element)
    (name : String) (e : Element) (hm : mainElementsOf children = [e])
    (hp : jsToLower e.tag = "path") (hc : e.children = [])
    (_hs : elemHasStroke e = true) :
    (processSvgDom vb children name).isSinglePath = true := by
  show isSinglePathDom children = true
  unfold isSinglePathDom
  rw [hm]
  simp [classifyMains, hp, hc]

/-- Witness for C10 at the concrete single stroked path. -/
theorem c10_single_stroked_path_witness :
    (processSvgDom (some "0 0 24 24") c10children "diagonal").isSinglePath = true :=
  c10_single_stroked_path (some "0 0 24 24") c10children "diagonal"
    (Element.mk "path" [("d", "M4 4L20 20"), ("stroke", "#000")] []) rfl rfl rfl rfl

end SvgrProc
